import Mathlib

/-!
Shallow embedding of the JARVIS voice-assistant concurrency core
(repository `JARVIS_MINI_COMPANION_ROBOT`, directory `src/jarvis/`).

Conventions of the embedding:
* durations are modelled in whole milliseconds as `Nat` (the source uses
  seconds as floats; the integer truncation `int(x / y)` of the source
  corresponds to `Nat` division on the millisecond scale);
* external collaborators (Deepgram STT, Groq LLM, the SQLite store, the
  Porcupine engine) are oracles: a call outcome is an `Except Unit` value,
  `.error` standing for a raised exception;
* the background threads of the source (audio callback producer, wake-word
  monitor) are modelled by the list of events they deliver during one run,
  in delivery order.
-/

namespace Jarvis

/-! ## Wake-word detector, `src/jarvis/wake_word/detector.py` -/

/-- The Porcupine keyword-spotting engine: `process` consumes an audio frame
(16-bit samples) and returns a keyword index, or raises (`.error`). -/
structure Engine where
  process : List Int → Except Unit Int

/-- `WakeWordDetector.__init__` leaves `enabled = False` and `porcupine = None`
on every failure path; the embedding nevertheless keeps the two fields
independent exactly as the object does. -/
structure WakeWordDetector where
  enabled : Bool
  porcupine : Option Engine

/-- `WakeWordDetector.detect_wake_word` (detector.py lines 75-93):
returns `False` when disabled or the engine is absent, otherwise
`porcupine.process(frame) > 0`, with any exception swallowed to `False`. -/
def detect_wake_word (d : WakeWordDetector) (frame : List Int) : Bool :=
  if !d.enabled || d.porcupine.isNone then false
  else
    match d.porcupine with
    | none => false
    | some eng =>
      match eng.process frame with
      | Except.ok r => decide (0 < r)
      | Except.error _ => false

/-! ## VAD recorder, `src/jarvis/audio/recorder.py` -/

/-- One fixed-duration PCM frame as dequeued from the audio queue, together
with the two per-frame classifications the loop body computes on it:
`wakeDetected` is the value of `wake_word_detector.detect_wake_word(frame)`
and `isSpeech` the value of `vad.is_speech(frame, sample_rate)`. -/
structure Frame where
  isSpeech : Bool
  wakeDetected : Bool
  samples : List Int
deriving DecidableEq

/-- State of the `_record_with_vad` loop: the `audio_buffer`, the
`silence_frames` counter, and whether a `break` has ended the episode. -/
structure VadState where
  buffer : List Frame
  silence_frames : Nat
  done : Bool
deriving DecidableEq

def vadInit : VadState := ⟨[], 0, false⟩

/-- `max_silence_frames = int(vad_silence_duration / (frame_duration_ms / 1000))`
(recorder.py line 210), on the millisecond scale. -/
def max_silence_frames (silenceMs frameMs : Nat) : Nat := silenceMs / frameMs

/-- `max_frames = int(vad_max_recording_time / (frame_duration_ms / 1000))`
(recorder.py line 211). The source computes this value but never uses it:
the recording cap is enforced by a wall-clock check instead. -/
def max_frames (maxMs frameMs : Nat) : Nat := maxMs / frameMs

/-- One iteration of the `_record_with_vad` loop body after a frame has been
dequeued (recorder.py lines 247-274): first the wake-word check (`break`
without appending), then the VAD classification; the frame is appended in
both the speech and the silence branch; the silence counter resets on speech
and increments on silence, and the loop breaks when it reaches
`max_silence_frames`. -/
def vadStep (wakeEnabled : Bool) (maxSilence : Nat) (s : VadState) (f : Frame) :
    VadState :=
  if s.done then s
  else if wakeEnabled && f.wakeDetected then ⟨s.buffer, s.silence_frames, true⟩
  else if f.isSpeech then ⟨s.buffer ++ [f], 0, false⟩
  else ⟨s.buffer ++ [f], s.silence_frames + 1,
        decide (maxSilence ≤ s.silence_frames + 1)⟩

/-- The silence/wake part of `_record_with_vad` run over the sequence of
frames dequeued during one episode (`queue.Empty` timeouts re-enter the
loop and deliver nothing, so they do not appear in the sequence). -/
def recordVAD (wakeEnabled : Bool) (maxSilence : Nat) (frames : List Frame) :
    VadState :=
  frames.foldl (vadStep wakeEnabled maxSilence) vadInit

/-- A dequeued frame together with the elapsed wall-clock time (ms since
`start_time`) observed at the top-of-loop check `time.time() - start_time`
(recorder.py line 243) of the iteration that dequeues it. Frames are
produced by the hardware in real time: the i-th dequeued frame (0-indexed)
can only be dequeued after the previous i frames were produced, so its
check time is at least `i * frameMs` in any real run. -/
structure TimedFrame where
  checkTimeMs : Nat
  frame : Frame
deriving DecidableEq

/-- One full iteration of the `_record_with_vad` while-loop (recorder.py
lines 241-274): the wall-clock timeout check
`time.time() - start_time > vad_max_recording_time` breaks (strictly
greater) before the frame is dequeued; otherwise the body `vadStep` runs. -/
def vadStepTimed (wakeEnabled : Bool) (maxSilence maxTimeMs : Nat)
    (s : VadState) (tf : TimedFrame) : VadState :=
  if s.done then s
  else if maxTimeMs < tf.checkTimeMs then ⟨s.buffer, s.silence_frames, true⟩
  else vadStep wakeEnabled maxSilence s tf.frame

/-- `_record_with_vad`'s loop over the timed frame sequence of one episode. -/
def recordVADTimed (wakeEnabled : Bool) (maxSilence maxTimeMs : Nat)
    (frames : List TimedFrame) : VadState :=
  frames.foldl (vadStepTimed wakeEnabled maxSilence maxTimeMs) vadInit

/-- Conversion of the collected buffer to the returned array (recorder.py
lines 281-296): a non-empty buffer is concatenated sample-wise; an empty
buffer yields the explicit empty-segment result `np.zeros((1, channels))`,
i.e. one zero sample per channel. -/
def segment_of_buffer (buffer : List Frame) (channels : Nat) : List Int :=
  if buffer.isEmpty then List.replicate channels 0
  else (buffer.map Frame.samples).flatten

/-! ## Sample-rate probing, `AudioRecorder._get_supported_sample_rate`
(recorder.py lines 76-123) -/

/-- `rates_to_try = [preferred_rate, 44100, 48000, 22050, 32000, 8000]`
(recorder.py line 88). -/
def base_rates (preferred : Nat) : List Nat :=
  [preferred, 44100, 48000, 22050, 32000, 8000]

/-- The candidate list actually probed: when the device query succeeds and
its default rate is not already among the candidates, it is inserted at
index 1 (recorder.py lines 90-96); when the query raises, the base list is
used unchanged. -/
def rates_to_try (preferred : Nat) (deviceDefault : Option Nat) : List Nat :=
  match deviceDefault with
  | none => base_rates preferred
  | some d =>
    if d ∈ base_rates preferred then base_rates preferred
    else (base_rates preferred).insertIdx 1 d

/-- The probing loop (recorder.py lines 104-123): for each candidate rate,
`check_input_settings` is tried with 1 channel, then with 2 channels; the
first success returns that rate (`channels` is mutated to 2 only in the
2-channel branch, otherwise it keeps its current value `initCh`); if every
candidate fails, the fallback `44100` is returned with `channels` untouched. -/
def probe (validates : Nat → Nat → Bool) (initCh : Nat) :
    List Nat → Nat × Nat
  | [] => (44100, initCh)
  | r :: rest =>
    if validates r 1 then (r, initCh)
    else if validates r 2 then (r, 2)
    else probe validates initCh rest

/-- `AudioRecorder._get_supported_sample_rate`, as a function of the
platform validator (`sd.check_input_settings` succeeding or raising for a
rate/channel pair), the current channel count (`AUDIO_CHANNELS = 1` at
startup), the preferred rate and the queried device default. -/
def get_supported_sample_rate (validates : Nat → Nat → Bool) (initCh : Nat)
    (preferred : Nat) (deviceDefault : Option Nat) : Nat × Nat :=
  probe validates initCh (rates_to_try preferred deviceDefault)

/-! ## Conversation history, `JARVISCore.save_history` / `get_history`
(jarvis_core.py lines 81-102) -/

/-- One row of the SQLite `history` table (role, content); `rowid` order is
insertion order, modelled by list order. -/
structure Turn where
  role : String
  content : String
deriving DecidableEq

/-- `save_history` appends one row (jarvis_core.py lines 81-89). -/
def save_history (db : List Turn) (role content : String) : List Turn :=
  db ++ [⟨role, content⟩]

/-- `get_history` selects `ORDER BY rowid DESC LIMIT limit` (newest-first
prefix of the reversed log) and then re-reverses it with `reversed(rows)`
(jarvis_core.py lines 91-102), yielding the most recent `limit` turns
oldest-first. -/
def get_history (db : List Turn) (limit : Nat) : List Turn :=
  ((db.reverse).take limit).reverse

/-! ## TTS playback with interruption, `src/jarvis/tts/placeholder.py` -/

/-- One poll of `_monitor_wake_word`'s loop (placeholder.py lines 157-170):
the frame the `audio_callback` returned (`none` models Python `None`) and
the time, in ms since entering `Speaking`, at which the poll occurred. -/
structure PollEvent where
  frame : Option (List Int)
  timeMs : Nat
deriving DecidableEq

/-- Whether `_monitor_wake_word` sets `self.interrupted` during a run whose
polls are `polls` (placeholder.py lines 157-170): the flag is set as soon
as some poll yields a frame on which `detect_wake_word` fires. The poll
time is not consulted anywhere: the `self_trigger_disabled_until` deadline
set by `JARVISCore.run_interaction_cycle` (jarvis_core.py line 197) is
never read. -/
def monitor_interrupts (d : WakeWordDetector) (polls : List PollEvent) : Bool :=
  polls.any fun p =>
    match p.frame with
    | none => false
    | some f => detect_wake_word d f

/-- `TTSClient.speak_with_interruption` (placeholder.py lines 92-134):
with no detector object or a disabled one it speaks plainly and returns
`True`; otherwise it returns `not self.interrupted`, the flag being set by
the monitor thread. A run is abstracted by the polls the monitor performed
during it. -/
def speak_with_interruption (det : Option WakeWordDetector)
    (polls : List PollEvent) : Bool :=
  match det with
  | none => true
  | some d => if !d.enabled then true else !(monitor_interrupts d polls)

/-- Modelled from the spec: the SelfMuteWindow filter that the code lacks.
The spec requires wake-word signals polled strictly before the
`SelfMuteWindow` deadline during `Speaking` to be discarded; no code under
`src/` reads `self_trigger_disabled_until`, so this definition follows the
spec's words: a poll interrupts only if its detection fires and its time is
not strictly before the deadline. -/
def monitor_interrupts_specced (d : WakeWordDetector) (muteDeadlineMs : Nat)
    (polls : List PollEvent) : Bool :=
  polls.any fun p =>
    match p.frame with
    | none => false
    | some f => detect_wake_word d f && decide (muteDeadlineMs ≤ p.timeMs)

/-- Modelled from the spec: `speak_with_interruption` as the spec describes
it, reporting Completed (`true`) unless a signal outside the mute window
fires. -/
def speak_with_interruption_specced (det : Option WakeWordDetector)
    (muteDeadlineMs : Nat) (polls : List PollEvent) : Bool :=
  match det with
  | none => true
  | some d =>
    if !d.enabled then true
    else !(monitor_interrupts_specced d muteDeadlineMs polls)

/-- The audio callback `run_interaction_cycle` passes to
`speak_with_interruption` (jarvis_core.py lines 200-205): it always
returns `None`. -/
def core_audio_callback : Unit → Option (List Int) := fun _ => none

/-- The audio callback `JarvisAssistant.run_once` passes
(main.py line 105, `lambda: None`). -/
def main_audio_callback : Unit → Option (List Int) := fun _ => none

/-- The poll sequence produced when the monitor polls a fixed callback at
the given times. -/
def pollsOf (cb : Unit → Option (List Int)) (times : List Nat) :
    List PollEvent :=
  times.map fun t => ⟨cb (), t⟩

/-! ## Interaction cycle, `JARVISCore` (jarvis_core.py) -/

/-- The literal fallback `get_ai_response` substitutes when the generation
collaborator raises (jarvis_core.py line 151). -/
def neural_fallback : String :=
  "Neural Core error. I cannot fetch that right now, Sir."

/-- `JARVISCore.get_ai_response` (jarvis_core.py lines 132-151): the Groq
call outcome is the oracle `llmRes`; an exception is caught and replaced by
the fixed fallback text. -/
def get_ai_response (llmRes : Except Unit String) : String :=
  match llmRes with
  | Except.ok r => r
  | Except.error _ => neural_fallback

/-- `JARVISCore.generate_response` (jarvis_core.py lines 153-162):
obtains the response (never raises, by `get_ai_response`'s handler), then
appends the user turn and the assistant turn to the history store
(`save_history` swallows store errors). Returns the response and the new
store contents. -/
def generate_response (db : List Turn) (user_input : String)
    (llmRes : Except Unit String) : String × List Turn :=
  let response := get_ai_response llmRes
  let db1 := save_history db "user" user_input
  let db2 := save_history db1 "assistant" response
  (response, db2)

/-- The ASCII whitespace characters Python's `str.strip()` removes. -/
def py_isspace (c : Char) : Bool :=
  c == ' ' || c == '\t' || c == '\n' || c == '\r' || c == '\u000B' || c == '\u000C'

/-- Python's `str.strip()` with no argument: leading and trailing
whitespace removed. -/
def py_strip (s : String) : String :=
  ⟨((s.data.dropWhile py_isspace).reverse.dropWhile py_isspace).reverse⟩

/-- Outcome of one `run_interaction_cycle` call: the returned Bool, whether
the generation collaborator was reached, the text handed to
`speak_with_interruption` (`none` when playback was never invoked), and the
history store afterwards. -/
structure CycleResult where
  success : Bool
  calledLLM : Bool
  spoken : Option String
  db : List Turn
deriving DecidableEq

/-- `JARVISCore.run_interaction_cycle` (jarvis_core.py lines 164-221) over
the collaborator oracles of one cycle: a raised recording or transcription
exception is caught by the outer handler and yields `False`; an empty or
whitespace-only transcript (`not transcript or transcript.strip() == ""`)
yields `False` before the generation collaborator is called; otherwise the
response is generated (with the apology fallback on a generation failure),
playback is invoked on it, and the cycle returns `True` whether or not
playback was interrupted. -/
def run_interaction_cycle (db : List Turn) (recordRes : Except Unit Unit)
    (sttRes : Except Unit String) (llmRes : Except Unit String)
    (det : Option WakeWordDetector) (polls : List PollEvent) : CycleResult :=
  match recordRes with
  | Except.error _ => ⟨false, false, none, db⟩
  | Except.ok _ =>
    match sttRes with
    | Except.error _ => ⟨false, false, none, db⟩
    | Except.ok transcript =>
      if transcript = "" ∨ py_strip transcript = "" then ⟨false, false, none, db⟩
      else
        let rdb := generate_response db transcript llmRes
        let _completed := speak_with_interruption det polls
        ⟨true, true, some rdb.1, rdb.2⟩

/-! ## Concrete inputs used by witnesses and counterexamples -/

/-- A detector whose engine always reports a detection. -/
def activeDetector : WakeWordDetector :=
  ⟨true, some ⟨fun _ => Except.ok 1⟩⟩

/-- A detector whose engine always raises. -/
def faultyDetector : WakeWordDetector :=
  ⟨true, some ⟨fun _ => Except.error ()⟩⟩

/-- A pure-silence frame. -/
def silFrame : Frame := ⟨false, false, []⟩

/-- A speech frame. -/
def speechFrame : Frame := ⟨true, false, []⟩

/-- A continuous-speech timed stream arriving exactly on the real-time
schedule (frame i checked at `i * 30` ms), against a 90 ms recording cap. -/
def c3Frames : List TimedFrame :=
  [⟨0, speechFrame⟩, ⟨30, speechFrame⟩, ⟨60, speechFrame⟩,
   ⟨90, speechFrame⟩, ⟨120, speechFrame⟩]

/-! ## Helper lemmas -/

theorem vadStep_of_done (w : Bool) (N : Nat) (s : VadState) (f : Frame)
    (h : s.done = true) : vadStep w N s f = s := by
  simp [vadStep, h]

theorem foldl_vadStep_of_done (w : Bool) (N : Nat) (l : List Frame)
    (s : VadState) (h : s.done = true) : l.foldl (vadStep w N) s = s := by
  induction l with
  | nil => rfl
  | cons f l ih => rw [List.foldl_cons, vadStep_of_done w N s f h]; exact ih

theorem vadStep_buffer_of_open (N : Nat) (s : VadState) (f : Frame)
    (hs : s.done = false) :
    (vadStep false N s f).buffer = s.buffer ++ [f] := by
  simp only [vadStep, hs, Bool.false_and, if_neg, Bool.false_eq_true,
    not_false_eq_true, if_false]
  split <;> rfl

/-- While the episode stays open, every processed frame is in the buffer. -/
theorem foldl_vadStep_open_buffer (N : Nat) :
    ∀ (l : List Frame) (s : VadState),
      (l.foldl (vadStep false N) s).done = false →
      (l.foldl (vadStep false N) s).buffer = s.buffer ++ l := by
  intro l
  induction l with
  | nil => intro s _; simp
  | cons f l ih =>
    intro s h
    rw [List.foldl_cons] at h ⊢
    cases hs : s.done with
    | true =>
      rw [vadStep_of_done false N s f hs, foldl_vadStep_of_done false N l s hs] at h
      rw [h] at hs
      exact absurd hs (by simp)
    | false =>
      cases hstep : (vadStep false N s f).done with
      | true =>
        rw [foldl_vadStep_of_done false N l _ hstep] at h
        rw [h] at hstep
        exact absurd hstep (by simp)
      | false =>
        rw [ih _ h, vadStep_buffer_of_open N s f hs, List.append_assoc]
        rfl

/-- Folding `k` silence frames from an open state with counter `c`, while
`c + k` stays below the threshold: all frames appended, counter `c + k`,
still open. -/
theorem foldl_vadStep_silence_run (N : Nat) (sf : Frame)
    (hsf : sf.isSpeech = false) :
    ∀ (k : Nat) (s : VadState), s.done = false → s.silence_frames + k < N →
      (List.replicate k sf).foldl (vadStep false N) s =
        ⟨s.buffer ++ List.replicate k sf, s.silence_frames + k, false⟩ := by
  intro k
  induction k with
  | zero =>
    intro s hs _
    cases s
    simp_all
  | succ k ih =>
    intro s hs hlt
    rw [List.replicate_succ, List.foldl_cons]
    have hnotyet : (decide (N ≤ s.silence_frames + 1)) = false := by
      simp only [decide_eq_false_iff_not]
      omega
    have hstep : vadStep false N s sf =
        ⟨s.buffer ++ [sf], s.silence_frames + 1, false⟩ := by
      simp [vadStep, hs, hsf, hnotyet]
    rw [hstep, ih ⟨s.buffer ++ [sf], s.silence_frames + 1, false⟩ rfl (by simp; omega)]
    simp [List.append_assoc, List.replicate_succ]
    omega

theorem vadStepTimed_of_done (w : Bool) (N M : Nat) (s : VadState)
    (tf : TimedFrame) (h : s.done = true) : vadStepTimed w N M s tf = s := by
  simp [vadStepTimed, h]

theorem foldl_vadStepTimed_of_done (w : Bool) (N M : Nat)
    (l : List TimedFrame) (s : VadState) (h : s.done = true) :
    l.foldl (vadStepTimed w N M) s = s := by
  induction l with
  | nil => rfl
  | cons tf l ih => rw [List.foldl_cons, vadStepTimed_of_done w N M s tf h]; exact ih

theorem vadStep_buffer_le (w : Bool) (N : Nat) (s : VadState) (f : Frame) :
    (vadStep w N s f).buffer.length ≤ s.buffer.length + 1 := by
  simp only [vadStep]
  split
  · omega
  · split
    · simp
    · split <;> simp

/-- Each frame appended by the timed loop passed the wall-clock check. -/
theorem foldl_vadStepTimed_buffer_le (w : Bool) (N M : Nat) :
    ∀ (l : List TimedFrame) (s : VadState),
      (l.foldl (vadStepTimed w N M) s).buffer.length ≤
        s.buffer.length +
          (l.filter fun tf => decide (tf.checkTimeMs ≤ M)).length := by
  intro l
  induction l with
  | nil => intro s; simp
  | cons tf l ih =>
    intro s
    rw [List.foldl_cons]
    cases hs : s.done with
    | true =>
      rw [vadStepTimed_of_done w N M s tf hs]
      calc (l.foldl (vadStepTimed w N M) s).buffer.length
          ≤ s.buffer.length + (l.filter fun tf => decide (tf.checkTimeMs ≤ M)).length := ih s
        _ ≤ s.buffer.length + ((tf :: l).filter fun tf => decide (tf.checkTimeMs ≤ M)).length := by
            rw [List.filter_cons]
            split <;> simp
    | false =>
      by_cases ht : M < tf.checkTimeMs
      · have hstep : vadStepTimed w N M s tf = ⟨s.buffer, s.silence_frames, true⟩ := by
          simp [vadStepTimed, hs, ht]
        rw [hstep, foldl_vadStepTimed_of_done w N M l _ rfl]
        rw [List.filter_cons]
        split <;> simp
      · have hstep : vadStepTimed w N M s tf = vadStep w N s tf.frame := by
          simp [vadStepTimed, hs, ht]
        rw [hstep]
        have hkept : ((tf :: l).filter fun tf => decide (tf.checkTimeMs ≤ M)) =
            tf :: (l.filter fun tf => decide (tf.checkTimeMs ≤ M)) := by
          rw [List.filter_cons, if_pos (by simpa using Nat.le_of_not_lt ht)]
        rw [hkept]
        calc (l.foldl (vadStepTimed w N M) (vadStep w N s tf.frame)).buffer.length
            ≤ (vadStep w N s tf.frame).buffer.length +
                (l.filter fun tf => decide (tf.checkTimeMs ≤ M)).length := ih _
          _ ≤ s.buffer.length + 1 +
                (l.filter fun tf => decide (tf.checkTimeMs ≤ M)).length := by
              have := vadStep_buffer_le w N s tf.frame
              omega
          _ = s.buffer.length +
                (tf :: (l.filter fun tf => decide (tf.checkTimeMs ≤ M))).length := by
              simp
              omega

theorem lt_div_succ_mul (maxMs frameMs : Nat) (hf : 0 < frameMs) :
    maxMs < (maxMs / frameMs + 1) * frameMs := by
  have h1 := Nat.div_add_mod maxMs frameMs
  have h2 := Nat.mod_lt maxMs hf
  calc maxMs = frameMs * (maxMs / frameMs) + maxMs % frameMs := h1.symm
    _ < frameMs * (maxMs / frameMs) + frameMs := by omega
    _ = (maxMs / frameMs + 1) * frameMs := by ring

/-- Under the real-time arrival schedule, at most `maxMs / frameMs + 1`
dequeued frames can pass the wall-clock check. -/
theorem filter_sched_le (frameMs maxMs : Nat) (hf : 0 < frameMs)
    (l : List TimedFrame)
    (hsched : ∀ i : Fin l.length, i.val * frameMs ≤ (l.get i).checkTimeMs) :
    (l.filter fun tf => decide (tf.checkTimeMs ≤ maxMs)).length ≤
      maxMs / frameMs + 1 := by
  have hdrop : ((l.drop (maxMs / frameMs + 1)).filter
      fun tf => decide (tf.checkTimeMs ≤ maxMs)) = [] := by
    apply List.filter_eq_nil_iff.mpr
    intro tf htf
    obtain ⟨j, hj⟩ := List.mem_iff_get.mp htf
    have hlen : (maxMs / frameMs + 1) + j.val < l.length := by
      have := j.isLt
      simp [List.length_drop] at this
      omega
    have hget : (l.drop (maxMs / frameMs + 1)).get j =
        l.get ⟨(maxMs / frameMs + 1) + j.val, hlen⟩ := by
      simp [List.getElem_drop]
    have hge : ((maxMs / frameMs + 1) + j.val) * frameMs ≤ tf.checkTimeMs := by
      have h0 := hsched ⟨(maxMs / frameMs + 1) + j.val, hlen⟩
      rw [← hget, hj] at h0
      simpa using h0
    have hmul : (maxMs / frameMs + 1) * frameMs ≤
        ((maxMs / frameMs + 1) + j.val) * frameMs :=
      Nat.mul_le_mul_right _ (by omega)
    have := lt_div_succ_mul maxMs frameMs hf
    simp only [decide_eq_true_eq]
    omega
  calc (l.filter fun tf => decide (tf.checkTimeMs ≤ maxMs)).length
      = ((l.take (maxMs / frameMs + 1)).filter
          fun tf => decide (tf.checkTimeMs ≤ maxMs)).length +
        ((l.drop (maxMs / frameMs + 1)).filter
          fun tf => decide (tf.checkTimeMs ≤ maxMs)).length := by
        conv_lhs => rw [← List.take_append_drop (maxMs / frameMs + 1) l]
        rw [List.filter_append, List.length_append]
    _ = ((l.take (maxMs / frameMs + 1)).filter
          fun tf => decide (tf.checkTimeMs ≤ maxMs)).length := by
        rw [hdrop]
        simp
    _ ≤ (l.take (maxMs / frameMs + 1)).length := List.length_filter_le _ _
    _ ≤ maxMs / frameMs + 1 := by
        rw [List.length_take]
        omega

/-- Once a dequeued frame fails the wall-clock check, the episode is closed. -/
theorem foldl_vadStepTimed_sets_done (w : Bool) (N M : Nat) :
    ∀ (l : List TimedFrame) (s : VadState),
      (∃ tf ∈ l, M < tf.checkTimeMs) →
      (l.foldl (vadStepTimed w N M) s).done = true := by
  intro l
  induction l with
  | nil => intro s h; simp at h
  | cons tf l ih =>
    intro s h
    rw [List.foldl_cons]
    rcases h with ⟨tf', htf', hgt⟩
    rcases List.mem_cons.mp htf' with heq | hmem
    · subst heq
      cases hs : s.done with
      | true =>
        rw [vadStepTimed_of_done w N M s tf' hs]
        rw [foldl_vadStepTimed_of_done w N M l s hs]
        exact hs
      | false =>
        have hstep : vadStepTimed w N M s tf' = ⟨s.buffer, s.silence_frames, true⟩ := by
          simp [vadStepTimed, hs, hgt]
        rw [hstep, foldl_vadStepTimed_of_done w N M l _ rfl]
    · exact ih _ ⟨tf', hmem, hgt⟩

theorem monitor_interrupts_of_no_frames (d : WakeWordDetector)
    (polls : List PollEvent) (h : ∀ p ∈ polls, p.frame = none) :
    monitor_interrupts d polls = false := by
  unfold monitor_interrupts
  rw [List.any_eq_false]
  intro p hp
  rw [h p hp]
  simp

theorem foldl_save_history (turns : List Turn) :
    ∀ acc : List Turn,
      turns.foldl (fun db t => save_history db t.role t.content) acc =
        acc ++ turns := by
  induction turns with
  | nil => intro acc; simp
  | cons t ts ih =>
    intro acc
    cases t with
    | mk r c =>
      rw [List.foldl_cons, ih]
      simp [save_history]

theorem probe_eq_find (v : Nat → Nat → Bool) (ch : Nat) :
    ∀ rates : List Nat,
      probe v ch rates =
        ((rates.find? fun r => v r 1 || v r 2).elim (44100, ch)
          fun r => (r, if v r 1 then ch else 2)) := by
  intro rates
  induction rates with
  | nil => rfl
  | cons r rest ih =>
    by_cases h1 : v r 1
    · rw [List.find?_cons_of_pos _ (by simp [h1])]
      simp [probe, h1]
    · by_cases h2 : v r 2
      · rw [List.find?_cons_of_pos _ (by simp [h2])]
        simp [probe, h1, h2]
      · rw [List.find?_cons_of_neg _ (by simp [h1, h2])]
        rw [← ih]
        simp [probe, h1, h2]

/-! ## Claim theorems -/

/-- C1 (code_bug evaluation): during Speaking the self-mute window is not
enforced. With an enabled detector and a single wake-word signal polled at
200 ms — strictly inside the 0.5 s (= 500 ms) mute window — the code's
`speak_with_interruption` reports Interrupted (`false`), while the
spec-modelled variant that discards in-window signals reports Completed
(`true`): `self_trigger_disabled_until` (jarvis_core.py line 197) is
written but never read, so in-window signals are not discarded. -/
theorem c1_mute_window_not_enforced :
    speak_with_interruption (some activeDetector) [⟨some [0], 200⟩] = false ∧
    speak_with_interruption_specced (some activeDetector) 500
      [⟨some [0], 200⟩] = true := by
  exact ⟨rfl, rfl⟩

/-- C2: with silence threshold `N = silenceMs / frameMs` frames, in an open
recording episode every frame (speech or silence) is appended to the
segment; the silence counter resets to zero on a speech frame and
increments on each silence frame; and a run of consecutive silence frames
closes the segment exactly at the `N`-th one — for every `k < N` the
segment is still open with counter `k` and all frames buffered, and at `N`
it is closed with all `N` silence frames buffered. -/
theorem c2_segment_closes_at_silence_threshold
    (silenceMs frameMs N : Nat) (hN : N = max_silence_frames silenceMs frameMs)
    (hNpos : 0 < N) (pre : List Frame) (sf pf : Frame)
    (hsf : sf.isSpeech = false) (hpf : pf.isSpeech = true)
    (hopen : (recordVAD false N pre).done = false)
    (hzero : (recordVAD false N pre).silence_frames = 0) :
    (recordVAD false N pre).buffer = pre ∧
    (∀ k, k < N →
      recordVAD false N (pre ++ List.replicate k sf) =
        ⟨pre ++ List.replicate k sf, k, false⟩) ∧
    (∀ k, k < N →
      (recordVAD false N ((pre ++ List.replicate k sf) ++ [pf])).silence_frames
        = 0) ∧
    recordVAD false N (pre ++ List.replicate N sf) =
      ⟨pre ++ List.replicate N sf, N, true⟩ := by
  have hbuf : (recordVAD false N pre).buffer = pre := by
    have h0 := foldl_vadStep_open_buffer N pre vadInit hopen
    simpa [recordVAD, vadInit] using h0
  have hstate : recordVAD false N pre = ⟨pre, 0, false⟩ := by
    have h1 := hbuf
    have h2 := hzero
    have h3 := hopen
    cases hS : recordVAD false N pre
    rw [hS] at h1 h2 h3
    simp_all
  have hpart2 : ∀ k, k < N →
      recordVAD false N (pre ++ List.replicate k sf) =
        ⟨pre ++ List.replicate k sf, k, false⟩ := by
    intro k hk
    show (pre ++ List.replicate k sf).foldl (vadStep false N) vadInit = _
    rw [List.foldl_append]
    show (List.replicate k sf).foldl (vadStep false N) (recordVAD false N pre) = _
    rw [hstate]
    have h0 := foldl_vadStep_silence_run N sf hsf k ⟨pre, 0, false⟩ rfl
      (by simpa using hk)
    simpa using h0
  refine ⟨hbuf, hpart2, ?_, ?_⟩
  · intro k hk
    show (List.foldl (vadStep false N) vadInit
        ((pre ++ List.replicate k sf) ++ [pf])).silence_frames = 0
    rw [List.foldl_append]
    show (List.foldl (vadStep false N)
        (recordVAD false N (pre ++ List.replicate k sf)) [pf]).silence_frames = 0
    rw [hpart2 k hk]
    simp [vadStep, hpf]
  · have hN1 : N = (N - 1) + 1 := by omega
    have hsucc : List.replicate N sf = List.replicate (N - 1) sf ++ [sf] := by
      conv_lhs => rw [hN1, List.replicate_succ']
    rw [hsucc, ← List.append_assoc]
    show ((pre ++ List.replicate (N - 1) sf) ++ [sf]).foldl (vadStep false N)
        vadInit = _
    rw [List.foldl_append]
    show List.foldl (vadStep false N)
        (recordVAD false N (pre ++ List.replicate (N - 1) sf)) [sf] = _
    rw [hpart2 (N - 1) (by omega)]
    simp only [List.foldl_cons, List.foldl_nil, vadStep, hsf, Bool.false_and,
      if_false, Bool.false_eq_true, not_false_eq_true]
    have hdec : decide (N ≤ (N - 1) + 1) = true := by
      simp only [decide_eq_true_eq]
      omega
    simp [hdec, VadState.mk.injEq, List.append_assoc]
    omega

/-- Witness for C2 at the configured silence timeout scaled down to 90 ms
with 30 ms frames (`N = 3`), an empty prelude and concrete frames. -/
theorem c2_witness :
    recordVAD false 3 ([] ++ List.replicate 3 silFrame) =
      ⟨[] ++ List.replicate 3 silFrame, 3, true⟩ :=
  (c2_segment_closes_at_silence_threshold 90 30 3 rfl (by decide) [] silFrame
    speechFrame rfl rfl rfl rfl).2.2.2

/-- C3 counterexample: with the 90 ms cap and 30 ms frames, a
continuous-speech stream dequeued exactly on the real-time schedule
(check of frame i at `i * 30` ms) yields a 4-frame segment: more than the
claimed hard ceiling `max_frames = 90 / 30 = 3`, and 4 * 30 = 120 ms of
audio, longer than the 90 ms maximum — the source's frame-count ceiling
`max_frames` (recorder.py line 211) is computed but never enforced, and
the strict wall-clock check admits one extra frame. -/
theorem c3_counterexample :
    (∀ i : Fin c3Frames.length,
      i.val * 30 ≤ (c3Frames.get i).checkTimeMs) ∧
    (∀ tf ∈ c3Frames, tf.frame.isSpeech = true) ∧
    (recordVADTimed false (max_silence_frames 1500 30) 90 c3Frames).buffer.length
      = 4 ∧
    max_frames 90 30 = 3 := by
  decide

/-- C3 amended: the recording loop closes when the elapsed wall-clock time
strictly exceeds the cap before a frame is dequeued; since the check
preceding the i-th dequeued frame cannot occur before the previous i frames
were produced (`i * frameMs` elapsed), a segment never holds more than
`max_frames maxMs frameMs + 1` frames — i.e. at most one frame beyond the
claimed ceiling — and the episode is closed as soon as any dequeue attempt
observes elapsed time beyond the cap, regardless of speech activity. -/
theorem c3_max_duration_bound (w : Bool) (N maxMs frameMs : Nat)
    (hf : 0 < frameMs) (frames : List TimedFrame)
    (hsched : ∀ i : Fin frames.length,
      i.val * frameMs ≤ (frames.get i).checkTimeMs) :
    (recordVADTimed w N maxMs frames).buffer.length ≤
      max_frames maxMs frameMs + 1 ∧
    ((∃ tf ∈ frames, maxMs < tf.checkTimeMs) →
      (recordVADTimed w N maxMs frames).done = true) := by
  constructor
  · calc (recordVADTimed w N maxMs frames).buffer.length
        ≤ vadInit.buffer.length +
            (frames.filter fun tf => decide (tf.checkTimeMs ≤ maxMs)).length :=
          foldl_vadStepTimed_buffer_le w N maxMs frames vadInit
      _ ≤ maxMs / frameMs + 1 := by
          have h0 := filter_sched_le frameMs maxMs hf frames hsched
          simpa [vadInit] using h0
      _ = max_frames maxMs frameMs + 1 := rfl
  · intro h
    exact foldl_vadStepTimed_sets_done w N maxMs frames vadInit h

/-- Witness for C3's amended bound on the concrete schedule stream. -/
theorem c3_witness :
    (recordVADTimed false 50 90 c3Frames).buffer.length ≤ max_frames 90 30 + 1 ∧
    ((∃ tf ∈ c3Frames, 90 < tf.checkTimeMs) →
      (recordVADTimed false 50 90 c3Frames).done = true) :=
  c3_max_duration_bound false 50 90 30 (by decide) c3Frames (by decide)

/-- C4 counterexample: the claim's final clause fails — on a platform where
16000 Hz is unsupported and 48000 Hz is supported but 44100 Hz also
validates, probing selects 44100 Hz (tried before 48000 Hz in the source's
ladder), not 48000 Hz. -/
theorem c4_counterexample :
    (fun r c => decide ((r = 44100 ∨ r = 48000) ∧ c = 1)) 16000 1 = false ∧
    (fun r c => decide ((r = 44100 ∨ r = 48000) ∧ c = 1)) 16000 2 = false ∧
    (fun r c => decide ((r = 44100 ∨ r = 48000) ∧ c = 1)) 48000 1 = true ∧
    get_supported_sample_rate
      (fun r c => decide ((r = 44100 ∨ r = 48000) ∧ c = 1)) 1 16000 none
      = (44100, 1) := by
  decide

/-- C4 amended: probing selects the first validating combination over the
source's candidate order (preferred rate, then the device default inserted
second only when its query succeeds and it is absent from the base list,
then 44100, 48000, 22050, 32000, 8000; 1 channel tried before 2 at each
rate), falling back to 44100 Hz with the configured channel count (1) when
nothing validates; and when 16000 Hz is unsupported, the device default is
unavailable and 44100 Hz is unsupported while 48000 Hz is supported, 48000
Hz is selected. -/
theorem c4_probe_ladder (v : Nat → Nat → Bool) (pref : Nat)
    (dflt : Option Nat) :
    get_supported_sample_rate v 1 pref dflt =
      (((rates_to_try pref dflt).find? fun r => v r 1 || v r 2).elim
        (44100, 1) fun r => (r, if v r 1 then 1 else 2)) ∧
    (v 16000 1 = false → v 16000 2 = false → v 44100 1 = false →
      v 44100 2 = false → v 48000 1 = true →
      get_supported_sample_rate v 1 16000 none = (48000, 1)) := by
  constructor
  · exact probe_eq_find v 1 (rates_to_try pref dflt)
  · intro h1 h2 h3 h4 h5
    show probe v 1 (rates_to_try 16000 none) = (48000, 1)
    simp [rates_to_try, base_rates, probe, h1, h2, h3, h4, h5]

/-- Witness for C4's amended scenario at a validator supporting 48000 Hz
mono only. -/
theorem c4_witness :
    get_supported_sample_rate (fun r c => decide (r = 48000 ∧ c = 1)) 1
      16000 none = (48000, 1) :=
  (c4_probe_ladder (fun r c => decide (r = 48000 ∧ c = 1)) 16000 none).2
    (by decide) (by decide) (by decide) (by decide) (by decide)

/-- C5: a cycle whose transcription collaborator returns an empty or
whitespace-only transcript returns `False` (no-speech outcome, back to wake
listening), never calls the generation collaborator, invokes no playback
and leaves the history store untouched. -/
theorem c5_empty_transcript_skips_generation (db : List Turn)
    (llmRes : Except Unit String) (det : Option WakeWordDetector)
    (polls : List PollEvent) (transcript : String)
    (h : py_strip transcript = "") :
    run_interaction_cycle db (Except.ok ()) (Except.ok transcript) llmRes det
      polls = ⟨false, false, none, db⟩ := by
  show (if transcript = "" ∨ py_strip transcript = "" then
      (⟨false, false, none, db⟩ : CycleResult)
    else
      let rdb := generate_response db transcript llmRes
      let _completed := speak_with_interruption det polls
      ⟨true, true, some rdb.1, rdb.2⟩) = ⟨false, false, none, db⟩
  rw [if_pos (Or.inr h)]

/-- Witness for C5 at a whitespace-only transcript. -/
theorem c5_witness :
    run_interaction_cycle [] (Except.ok ()) (Except.ok "   ")
      (Except.ok "hi") none [] = ⟨false, false, none, []⟩ :=
  c5_empty_transcript_skips_generation [] (Except.ok "hi") none [] "   "
    (by decide)

/-- C6: a cycle whose generation collaborator raises substitutes the fixed
fallback response and still proceeds to Speaking — playback is invoked with
the fallback text, both turns are appended to the history, and the cycle
returns `True` rather than aborting. -/
theorem c6_generation_failure_reaches_speaking (db : List Turn)
    (det : Option WakeWordDetector) (polls : List PollEvent)
    (transcript : String) (h : py_strip transcript ≠ "") :
    run_interaction_cycle db (Except.ok ()) (Except.ok transcript)
      (Except.error ()) det polls =
      ⟨true, true, some neural_fallback,
        (db ++ [⟨"user", transcript⟩]) ++ [⟨"assistant", neural_fallback⟩]⟩ := by
  have hcond : ¬(transcript = "" ∨ py_strip transcript = "") := by
    rintro (rfl | hh)
    · exact h rfl
    · exact h hh
  show (if transcript = "" ∨ py_strip transcript = "" then
      (⟨false, false, none, db⟩ : CycleResult)
    else
      let rdb := generate_response db transcript (Except.error ())
      let _completed := speak_with_interruption det polls
      ⟨true, true, some rdb.1, rdb.2⟩) = _
  rw [if_neg hcond]
  rfl

/-- Witness for C6 at a concrete transcript. -/
theorem c6_witness :
    run_interaction_cycle [] (Except.ok ()) (Except.ok "hello")
      (Except.error ()) none [] =
      ⟨true, true, some neural_fallback,
        [⟨"user", "hello"⟩, ⟨"assistant", neural_fallback⟩]⟩ :=
  c6_generation_failure_reaches_speaking [] none [] "hello" (by decide)

/-- C7: after appending any sequence of more than `n` turns to an empty
history store, `get_history` with limit `n` returns exactly the last `n`
appended turns in chronological (oldest-first) order. -/
theorem c7_recent_returns_last_n (turns : List Turn) (n : Nat)
    (h : n < turns.length) :
    get_history (turns.foldl (fun db t => save_history db t.role t.content) [])
      n = turns.drop (turns.length - n) := by
  rw [foldl_save_history turns [], List.nil_append]
  show ((turns.reverse).take n).reverse = turns.drop (turns.length - n)
  rw [List.take_reverse, List.reverse_reverse]

/-- Witness for C7: three appends, limit 2, returns the last two turns. -/
theorem c7_witness :
    get_history (([⟨"user", "a"⟩, ⟨"assistant", "b"⟩, ⟨"user", "c"⟩] :
        List Turn).foldl
      (fun db t => save_history db t.role t.content) []) 2 =
      ([⟨"user", "a"⟩, ⟨"assistant", "b"⟩, ⟨"user", "c"⟩] : List Turn).drop 1 :=
  c7_recent_returns_last_n
    [⟨"user", "a"⟩, ⟨"assistant", "b"⟩, ⟨"user", "c"⟩] 2 (by decide)

/-- C8: `detect_wake_word` returns `false` whenever the detector is
disabled, the engine is absent, or the engine raises on the frame; and a
`true` result can only arise from a successful engine call with a positive
keyword index — so a detector fault never propagates to the caller. -/
theorem c8_detect_wake_word_swallows_faults (d : WakeWordDetector)
    (f : List Int) :
    ((d.enabled = false ∨ d.porcupine = none ∨
        (∀ e, d.porcupine = some e → e.process f = Except.error ())) →
      detect_wake_word d f = false) ∧
    (detect_wake_word d f = true →
      ∃ e r, d.porcupine = some e ∧ e.process f = Except.ok r ∧ 0 < r) := by
  constructor
  · rintro (h | h | h)
    · simp [detect_wake_word, h]
    · simp [detect_wake_word, h]
    · cases hp : d.porcupine with
      | none => simp [detect_wake_word, hp]
      | some e =>
        have he := h e hp
        by_cases hen : d.enabled
        · simp [detect_wake_word, hp, hen, he]
        · simp [detect_wake_word, hen]
  · intro h
    unfold detect_wake_word at h
    by_cases hen : d.enabled
    · cases hp : d.porcupine with
      | none => rw [hp] at h; simp [hen] at h
      | some e =>
        rw [hp] at h
        simp [hen] at h
        cases hpr : e.process f with
        | ok r =>
          rw [hpr] at h
          simp at h
          exact ⟨e, r, rfl, hpr, h⟩
        | error u =>
          rw [hpr] at h
          simp at h
    · simp [hen] at h

/-- Witness for C8 at a raising engine and at a disabled detector. -/
theorem c8_witness :
    detect_wake_word faultyDetector [0] = false ∧
    detect_wake_word ⟨false, none⟩ [0] = false :=
  ⟨(c8_detect_wake_word_swallows_faults faultyDetector [0]).1
      (Or.inr (Or.inr fun e he => by
        simp only [faultyDetector, Option.some.injEq] at he
        rw [← he])),
   (c8_detect_wake_word_swallows_faults ⟨false, none⟩ [0]).1 (Or.inl rfl)⟩

/-- C9: a VAD recording episode that captures zero frames ends with an
empty buffer and the recorder returns the explicit empty-segment result
(one zero sample per channel) rather than blocking; and the orchestrator's
cycle on the resulting speechless audio (empty transcript) is a no-op that
returns `False` without calling the generation collaborator. -/
theorem c9_zero_frames_explicit_empty (w : Bool) (N M ch : Nat)
    (db : List Turn) (llmRes : Except Unit String)
    (det : Option WakeWordDetector) (polls : List PollEvent)
    (transcript : String) (h : py_strip transcript = "") :
    (recordVADTimed w N M []).buffer = [] ∧
    segment_of_buffer (recordVADTimed w N M []).buffer ch =
      List.replicate ch 0 ∧
    run_interaction_cycle db (Except.ok ()) (Except.ok transcript) llmRes det
      polls = ⟨false, false, none, db⟩ := by
  refine ⟨rfl, rfl, ?_⟩
  show (if transcript = "" ∨ py_strip transcript = "" then
      (⟨false, false, none, db⟩ : CycleResult)
    else
      let rdb := generate_response db transcript llmRes
      let _completed := speak_with_interruption det polls
      ⟨true, true, some rdb.1, rdb.2⟩) = ⟨false, false, none, db⟩
  rw [if_pos (Or.inr h)]

/-- Witness for C9 at the configured parameters and an empty transcript. -/
theorem c9_witness :
    (recordVADTimed false 50 30000 []).buffer = [] ∧
    segment_of_buffer (recordVADTimed false 50 30000 []).buffer 1 =
      List.replicate 1 0 ∧
    run_interaction_cycle [] (Except.ok ()) (Except.ok "") (Except.ok "hi")
      none [] = ⟨false, false, none, []⟩ :=
  c9_zero_frames_explicit_empty false 50 30000 1 [] (Except.ok "hi") none []
    "" (by decide)

/-- C10: `speak_with_interruption` reports Completed (`true`) whenever the
detector is absent or disabled or no monitor poll ever yields a frame; and
since both orchestrator call sites pass a callback that always returns
`None`, every playback run driven by either call site completes. -/
theorem c10_always_completed (det : Option WakeWordDetector)
    (polls : List PollEvent) (times : List Nat)
    (h : det = none ∨ (∃ d, det = some d ∧ d.enabled = false) ∨
         ∀ p ∈ polls, p.frame = none) :
    speak_with_interruption det polls = true ∧
    speak_with_interruption det (pollsOf core_audio_callback times) = true ∧
    speak_with_interruption det (pollsOf main_audio_callback times) = true := by
  have hnone : ∀ (d : WakeWordDetector) (cb : Unit → Option (List Int)),
      cb () = none →
      monitor_interrupts d (pollsOf cb times) = false := by
    intro d cb hcb
    apply monitor_interrupts_of_no_frames
    intro p hp
    obtain ⟨t, _, rfl⟩ := List.mem_map.mp hp
    exact hcb
  refine ⟨?_, ?_, ?_⟩
  · rcases h with rfl | ⟨d, rfl, hd⟩ | hpolls
    · rfl
    · simp [speak_with_interruption, hd]
    · cases det with
      | none => rfl
      | some d =>
        by_cases hd : d.enabled
        · simp [speak_with_interruption, hd,
            monitor_interrupts_of_no_frames d polls hpolls]
        · simp [speak_with_interruption, hd]
  · cases det with
    | none => rfl
    | some d =>
      by_cases hd : d.enabled
      · simp [speak_with_interruption, hd, hnone d core_audio_callback rfl]
      · simp [speak_with_interruption, hd]
  · cases det with
    | none => rfl
    | some d =>
      by_cases hd : d.enabled
      · simp [speak_with_interruption, hd, hnone d main_audio_callback rfl]
      · simp [speak_with_interruption, hd]

/-- Witness for C10: an enabled detector whose run polls one frameless
event still completes. -/
theorem c10_witness :
    speak_with_interruption (some activeDetector) [⟨none, 0⟩] = true :=
  (c10_always_completed (some activeDetector) [⟨none, 0⟩] []
    (Or.inr (Or.inr (by decide)))).1

end Jarvis
